import Mathlib

/-!
# Verification of the solar heat-transfer simulation

Shallow embedding of `simulateHeatTransfer` from
`src/solarSimulationPassiveLogic.js`, together with proofs of the
specification's testable properties.

The source program is a single while loop over JavaScript numbers:

```
const totalPowerOutput = numCollectors * collectorPower * 1000;
while (currentTemperature < targetTemperature) {
  const energyTransferred = totalPowerOutput * timeStep;
  const temperatureIncrease = energyTransferred / (mass * specificHeat);
  currentTemperature += temperatureIncrease;
  totalTime += timeStep;
  if (temperatureIncrease <= 0) break;
}
return totalTime;
```

Two embeddings are given:

* an exact-arithmetic embedding over `ℚ` (`simulateHeatTransfer`), used for
  the algebraic and functional-correctness claims.  `energyTransferred` and
  `temperatureIncrease` are loop-invariant constants in the source (they are
  computed from values that never change inside the loop), so the embedding
  hoists them out of the loop; the loop itself is represented by the
  fuel-indexed function `simLoop` run with a fuel that is proved sufficient
  (`simLoop_eq_of_counted` below characterises the result for every
  sufficiently large fuel, so the particular fuel choice is irrelevant).
  Note that in `ℚ`, division by zero yields `0`.

* an embedding over `JsNum` (`simulateHeatTransferJs`), a model of
  JavaScript numbers with the IEEE special values `NaN`, `+∞`, `-∞` and
  exact rational finite values.  Finite arithmetic is exact (no rounding)
  and signed zeros are not distinguished; this is adequate for the claims
  considered here, whose outcomes depend only on the sign/zero/special-value
  structure of the quantities involved.  Comparisons follow IEEE/JavaScript:
  any comparison with `NaN` is false.  The fuel-indexed loop returns `none`
  when the fuel is exhausted with the loop condition still true, so
  `some r` witnesses termination within the given number of iterations.
-/

/-- `totalPowerOutput = numCollectors * collectorPower * 1000` (watts),
from line 30 of the source. -/
def totalPowerOutput (numCollectors collectorPower : ℚ) : ℚ :=
  numCollectors * collectorPower * 1000

/-- `energyTransferred = totalPowerOutput * timeStep` (joules),
from line 36 of the source. -/
def energyTransferred (powerOutput timeStep : ℚ) : ℚ :=
  powerOutput * timeStep

/-- `temperatureIncrease = energyTransferred / (mass * specificHeat)` (°C),
from line 39 of the source. -/
def temperatureIncrease (energy mass specificHeat : ℚ) : ℚ :=
  energy / (mass * specificHeat)

/-- One executed iteration of the loop body acting on the mutable state
`(currentTemperature, totalTime)`: lines 42 and 45 of the source. -/
def loopStep (dT timeStep : ℚ) (s : ℚ × ℚ) : ℚ × ℚ :=
  (s.1 + dT, s.2 + timeStep)

/-- The while loop of lines 33-48, fuel-indexed.  Each executed iteration
updates the state by `loopStep`; the `dT ≤ 0` safety guard (line 47) stops
the loop after the update, exactly as the `break` in the source does. -/
def simLoop (target dT timeStep : ℚ) : ℕ → ℚ × ℚ → ℚ × ℚ
  | 0, s => s
  | fuel + 1, s =>
    if s.1 < target then
      let s' := loopStep dT timeStep s
      if dT ≤ 0 then s' else simLoop target dT timeStep fuel s'
    else s

/-- Number of iterations the loop performs when the per-step increase is
`dT > 0`: the least `n` with `init + n * dT ≥ target`. -/
def stepsNeeded (target init dT : ℚ) : ℕ :=
  ⌈(target - init) / dT⌉₊

/-- A fuel large enough for the loop to run to completion: one more than the
number of iterations needed when `dT > 0` (when `dT ≤ 0` the guard stops the
loop within one iteration, and `stepsNeeded` is still defined: in `ℚ`,
division by zero is `0`). -/
def loopFuel (target init dT : ℚ) : ℕ :=
  stepsNeeded target init dT + 1

/-- The constant per-iteration temperature increase, composed exactly as the
source computes it: `(numCollectors * collectorPower * 1000 * timeStep) /
(mass * specificHeat)`. -/
def deltaT (mass specificHeat numCollectors collectorPower timeStep : ℚ) : ℚ :=
  temperatureIncrease
    (energyTransferred (totalPowerOutput numCollectors collectorPower) timeStep)
    mass specificHeat

/-- The full run of `simulateHeatTransfer`, returning the final state
`(currentTemperature, totalTime)`. -/
def simulateRun (mass specificHeat initialTemperature targetTemperature
    numCollectors collectorPower timeStep : ℚ) : ℚ × ℚ :=
  simLoop targetTemperature
    (deltaT mass specificHeat numCollectors collectorPower timeStep) timeStep
    (loopFuel targetTemperature initialTemperature
      (deltaT mass specificHeat numCollectors collectorPower timeStep))
    (initialTemperature, 0)

/-- `simulateHeatTransfer`: the returned `totalTime`, line 50 of the source. -/
def simulateHeatTransfer (mass specificHeat initialTemperature
    targetTemperature numCollectors collectorPower timeStep : ℚ) : ℚ :=
  (simulateRun mass specificHeat initialTemperature targetTemperature
    numCollectors collectorPower timeStep).2

/-- The scenario value `totalTimeInSeconds` computed at lines 62-70 of the
source, with the constants of lines 55-60. -/
def totalTimeInSeconds : ℚ :=
  simulateHeatTransfer 10000 4186 20 60 25 4 60

/-! ## JavaScript-number model (IEEE special values, exact finite part) -/

/-- JavaScript numbers: `NaN`, `+∞`, `-∞`, or a finite value (modelled
exactly as a rational; signed zeros are not distinguished). -/
inductive JsNum where
  | nan : JsNum
  | posInf : JsNum
  | negInf : JsNum
  | fin : ℚ → JsNum
deriving DecidableEq

/-- IEEE multiplication on the model (`∞ * 0 = NaN`). -/
def JsNum.mul : JsNum → JsNum → JsNum
  | .nan, _ => .nan
  | _, .nan => .nan
  | .posInf, .posInf => .posInf
  | .posInf, .negInf => .negInf
  | .negInf, .posInf => .negInf
  | .negInf, .negInf => .posInf
  | .posInf, .fin q => if 0 < q then .posInf else if q < 0 then .negInf else .nan
  | .fin q, .posInf => if 0 < q then .posInf else if q < 0 then .negInf else .nan
  | .negInf, .fin q => if 0 < q then .negInf else if q < 0 then .posInf else .nan
  | .fin q, .negInf => if 0 < q then .negInf else if q < 0 then .posInf else .nan
  | .fin a, .fin b => .fin (a * b)

/-- IEEE addition on the model (`∞ + (-∞) = NaN`). -/
def JsNum.add : JsNum → JsNum → JsNum
  | .nan, _ => .nan
  | _, .nan => .nan
  | .posInf, .negInf => .nan
  | .negInf, .posInf => .nan
  | .posInf, _ => .posInf
  | _, .posInf => .posInf
  | .negInf, _ => .negInf
  | _, .negInf => .negInf
  | .fin a, .fin b => .fin (a + b)

/-- IEEE division on the model: a nonzero finite value divided by zero is a
signed infinity (zero is treated as `+0`), `0 / 0 = NaN`, `∞ / ∞ = NaN`. -/
def JsNum.div : JsNum → JsNum → JsNum
  | .nan, _ => .nan
  | _, .nan => .nan
  | .posInf, .posInf => .nan
  | .posInf, .negInf => .nan
  | .negInf, .posInf => .nan
  | .negInf, .negInf => .nan
  | .posInf, .fin q => if 0 ≤ q then .posInf else .negInf
  | .negInf, .fin q => if 0 ≤ q then .negInf else .posInf
  | .fin _, .posInf => .fin 0
  | .fin _, .negInf => .fin 0
  | .fin a, .fin b =>
    if b = 0 then
      if a = 0 then .nan else if 0 < a then .posInf else .negInf
    else .fin (a / b)

/-- JavaScript `<`: false whenever either operand is `NaN`. -/
def JsNum.lt : JsNum → JsNum → Bool
  | .nan, _ => false
  | _, .nan => false
  | .posInf, _ => false
  | .negInf, .negInf => false
  | .negInf, _ => true
  | .fin _, .posInf => true
  | .fin _, .negInf => false
  | .fin a, .fin b => decide (a < b)

/-- JavaScript `<=`: false whenever either operand is `NaN`. -/
def JsNum.le : JsNum → JsNum → Bool
  | .nan, _ => false
  | _, .nan => false
  | .negInf, _ => true
  | _, .posInf => true
  | .posInf, _ => false
  | .fin _, .negInf => false
  | .fin a, .fin b => decide (a ≤ b)

/-- The while loop of lines 33-48 over JavaScript numbers, fuel-indexed:
`none` means the fuel ran out with the loop condition still true, so
`some r` witnesses termination within the given number of iterations. -/
def simLoopJs (target dT timeStep : JsNum) :
    ℕ → JsNum × JsNum → Option (JsNum × JsNum)
  | 0, s => if JsNum.lt s.1 target then none else some s
  | fuel + 1, s =>
    if JsNum.lt s.1 target then
      let s' := (JsNum.add s.1 dT, JsNum.add s.2 timeStep)
      if JsNum.le dT (.fin 0) then some s'
      else simLoopJs target dT timeStep fuel s'
    else some s

/-- `simulateHeatTransfer` over JavaScript numbers: `some t` means the call
terminates within `fuel` iterations and returns `t`. -/
def simulateHeatTransferJs (mass specificHeat initialTemperature
    targetTemperature numCollectors collectorPower timeStep : JsNum)
    (fuel : ℕ) : Option JsNum :=
  let power := JsNum.mul (JsNum.mul numCollectors collectorPower) (.fin 1000)
  let energy := JsNum.mul power timeStep
  let dT := JsNum.div energy (JsNum.mul mass specificHeat)
  (simLoopJs targetTemperature dT timeStep fuel
    (initialTemperature, .fin 0)).map Prod.snd

/-! ## Loop characterisation lemmas -/

/-- If `n` iterations are exactly enough to reach the target (the state
reaches it after `n` steps and not before), the loop runs exactly `n`
iterations, for every fuel of at least `n`. -/
theorem simLoop_eq_of_counted (target dT timeStep : ℚ) :
    ∀ (n fuel : ℕ) (cur total : ℚ), n ≤ fuel →
      target ≤ cur + n * dT →
      (∀ m : ℕ, m < n → cur + m * dT < target) →
      simLoop target dT timeStep fuel (cur, total)
        = (cur + n * dT, total + n * timeStep) := by
  intro n
  induction n with
  | zero =>
    intro fuel cur total _ hreach _
    simp only [Nat.cast_zero, zero_mul, add_zero] at hreach ⊢
    cases fuel with
    | zero => simp [simLoop]
    | succ f => simp [simLoop, not_lt.mpr hreach]
  | succ n ih =>
    intro fuel cur total hfuel hreach hlt
    obtain ⟨f, rfl⟩ : ∃ f, fuel = f + 1 :=
      ⟨fuel - 1, (Nat.succ_pred_eq_of_pos (Nat.lt_of_lt_of_le n.succ_pos hfuel)).symm⟩
    have hcur : cur < target := by
      have := hlt 0 n.succ_pos
      simpa using this
    have hdT : 0 < dT := by
      have h1 : cur + (n : ℚ) * dT < target := hlt n (Nat.lt_succ_self n)
      have h2 : target ≤ cur + ((n : ℚ) + 1) * dT := by
        simpa [Nat.cast_succ] using hreach
      nlinarith
    have hrec := ih f (cur + dT) (total + timeStep) (Nat.succ_le_succ_iff.mp hfuel)
      (by push_cast at hreach ⊢; linarith)
      (by
        intro m hm
        have := hlt (m + 1) (Nat.succ_lt_succ hm)
        push_cast at this ⊢
        linarith)
    simp only [simLoop, if_pos hcur, loopStep, if_neg (not_le.mpr hdT), hrec,
      Prod.mk.injEq]
    constructor <;> (push_cast; ring)

/-- When the per-step increase is nonpositive, the guard stops the loop
after a single iteration (or zero iterations when the target is already
reached). -/
theorem simLoop_of_nonpos (target dT timeStep : ℚ) (fuel : ℕ)
    (cur total : ℚ) (hfuel : 1 ≤ fuel) (hdT : dT ≤ 0) :
    simLoop target dT timeStep fuel (cur, total)
      = if cur < target then (cur + dT, total + timeStep) else (cur, total) := by
  obtain ⟨f, rfl⟩ : ∃ f, fuel = f + 1 :=
    ⟨fuel - 1, (Nat.succ_pred_eq_of_pos hfuel).symm⟩
  by_cases hcur : cur < target <;>
    simp [simLoop, hcur, loopStep, hdT]

/-- For a positive per-step increase, `stepsNeeded` satisfies the exact
iteration-count conditions of `simLoop_eq_of_counted`. -/
theorem stepsNeeded_spec (target init dT : ℚ) (hdT : 0 < dT) :
    target ≤ init + (stepsNeeded target init dT : ℚ) * dT ∧
      ∀ m : ℕ, m < stepsNeeded target init dT →
        init + (m : ℚ) * dT < target := by
  constructor
  · have h1 : (target - init) / dT ≤ (stepsNeeded target init dT : ℚ) :=
      Nat.le_ceil _
    have h2 := (div_le_iff₀ hdT).mp h1
    linarith
  · intro m hm
    have h1 : (m : ℚ) < (target - init) / dT := Nat.lt_ceil.mp hm
    have h2 := (lt_div_iff₀ hdT).mp h1
    linarith

/-- `deltaT` unfolded to the spec's formula
`(totalPowerOutput * timeStep) / (mass * specificHeat)`. -/
theorem deltaT_def (mass specificHeat k p timeStep : ℚ) :
    deltaT mass specificHeat k p timeStep
      = totalPowerOutput k p * timeStep / (mass * specificHeat) := rfl

/-- Closed form of the full run when the per-step increase is positive:
the loop executes `stepsNeeded` iterations. -/
theorem simulateRun_eq_of_pos (mass specificHeat init target k p timeStep : ℚ)
    (hdT : 0 < deltaT mass specificHeat k p timeStep) :
    simulateRun mass specificHeat init target k p timeStep
      = (init + (stepsNeeded target init (deltaT mass specificHeat k p timeStep) : ℚ)
            * deltaT mass specificHeat k p timeStep,
         (stepsNeeded target init (deltaT mass specificHeat k p timeStep) : ℚ)
            * timeStep) := by
  obtain ⟨hreach, hlt⟩ :=
    stepsNeeded_spec target init (deltaT mass specificHeat k p timeStep) hdT
  have := simLoop_eq_of_counted target (deltaT mass specificHeat k p timeStep)
    timeStep (stepsNeeded target init (deltaT mass specificHeat k p timeStep))
    (loopFuel target init (deltaT mass specificHeat k p timeStep)) init 0
    (Nat.le_succ _) hreach hlt
  simpa [simulateRun, loopFuel] using this

/-- When the target is not above the initial temperature, the loop performs
zero iterations and the final state is unchanged. -/
theorem simulateRun_of_target_le (mass specificHeat i t k p timeStep : ℚ)
    (h : t ≤ i) :
    simulateRun mass specificHeat i t k p timeStep = (i, 0) := by
  simp [simulateRun, loopFuel, simLoop, not_lt.mpr h]

/-- When the per-step increase is nonpositive, the run stops after the single
guarded iteration (or zero iterations when the target is already reached). -/
theorem simulateRun_of_nonpos (mass specificHeat i t k p timeStep : ℚ)
    (hdT : deltaT mass specificHeat k p timeStep ≤ 0) :
    simulateRun mass specificHeat i t k p timeStep
      = if i < t then (i + deltaT mass specificHeat k p timeStep, timeStep)
        else (i, 0) := by
  have h := simLoop_of_nonpos t (deltaT mass specificHeat k p timeStep) timeStep
    (loopFuel t i (deltaT mass specificHeat k p timeStep)) i 0
    (Nat.le_add_left 1 _) hdT
  simp only [simulateRun, h, zero_add]

/-- The per-step increase of the reference scenario, exactly:
`(25 * 4 * 1000 * 60) / (10000 * 4186) = 300 / 2093`. -/
theorem ref_deltaT : deltaT 10000 4186 25 4 60 = 300 / 2093 := by
  norm_num [deltaT, temperatureIncrease, energyTransferred, totalPowerOutput]

/-- The reference scenario needs 280 iterations:
`⌈(60 - 20) / (300 / 2093)⌉ = ⌈279.06…⌉ = 280`. -/
theorem ref_steps : stepsNeeded 60 20 (300 / 2093 : ℚ) = 280 := by
  rw [stepsNeeded, Nat.ceil_eq_iff (by norm_num)]
  norm_num

/-- The reference scenario of lines 55-69 returns `280 * 60 = 16800`. -/
theorem reference_result : simulateHeatTransfer 10000 4186 20 60 25 4 60 = 16800 := by
  have hpos : 0 < deltaT 10000 4186 25 4 60 := by rw [ref_deltaT]; norm_num
  have h := simulateRun_eq_of_pos 10000 4186 20 60 25 4 60 hpos
  rw [simulateHeatTransfer, h]
  show (stepsNeeded 60 20 (deltaT 10000 4186 25 4 60) : ℚ) * 60 = 16800
  rw [ref_deltaT, ref_steps]
  norm_num

/-- With zero collectors the guard fires at once and the run returns one
time step. -/
theorem zero_collectors_result :
    simulateHeatTransfer 10000 4186 20 60 0 4 60 = 60 := by
  have h0 : deltaT 10000 4186 0 4 60 = 0 := by
    norm_num [deltaT, temperatureIncrease, energyTransferred, totalPowerOutput]
  have h := simulateRun_of_nonpos 10000 4186 20 60 0 4 60 (le_of_eq h0)
  rw [simulateHeatTransfer, h, if_pos (by norm_num : (20 : ℚ) < 60)]

/-- Shifting the initial and target temperatures by the same offset shifts
every intermediate temperature and leaves the elapsed time unchanged. -/
theorem simLoop_shift (target dT timeStep d : ℚ) :
    ∀ (fuel : ℕ) (cur total : ℚ),
      simLoop (target + d) dT timeStep fuel (cur + d, total)
        = ((simLoop target dT timeStep fuel (cur, total)).1 + d,
           (simLoop target dT timeStep fuel (cur, total)).2) := by
  intro fuel
  induction fuel with
  | zero => intro cur total; simp [simLoop]
  | succ f ih =>
    intro cur total
    by_cases hcur : cur < target
    · have hcur' : cur + d < target + d := by linarith
      simp only [simLoop, if_pos hcur, if_pos hcur', loopStep]
      by_cases hdT : dT ≤ 0
      · simp only [if_pos hdT, Prod.mk.injEq]
        exact ⟨by ring, trivial⟩
      · simp only [if_neg hdT]
        rw [show cur + d + dT = cur + dT + d by ring, ih (cur + dT) (total + timeStep)]
    · have hcur' : ¬ cur + d < target + d := fun h => hcur (by linarith)
      simp [simLoop, hcur, hcur']

/-- The elapsed-time component only ever grows by whole time steps: for
every fuel and every starting state it is the starting value plus a
natural-number multiple of `timeStep`. -/
theorem simLoop_snd_multiple (target dT timeStep : ℚ) :
    ∀ (fuel : ℕ) (s : ℚ × ℚ), ∃ n : ℕ,
      (simLoop target dT timeStep fuel s).2 = s.2 + n * timeStep := by
  intro fuel
  induction fuel with
  | zero => intro s; exact ⟨0, by simp [simLoop]⟩
  | succ f ih =>
    intro s
    by_cases hcur : s.1 < target
    · by_cases hdT : dT ≤ 0
      · exact ⟨1, by simp [simLoop, hcur, hdT, loopStep]⟩
      · obtain ⟨n, hn⟩ := ih (loopStep dT timeStep s)
        simp only [loopStep] at hn
        refine ⟨n + 1, ?_⟩
        simp only [simLoop, if_pos hcur, if_neg hdT, loopStep, hn]
        push_cast
        ring
    · exact ⟨0, by simp [simLoop, hcur]⟩

/-- With a nonnegative per-step increase, the temperature component never
decreases over any number of iterations. -/
theorem simLoop_fst_mono (target dT timeStep : ℚ) (hdT : 0 ≤ dT) :
    ∀ (fuel : ℕ) (s : ℚ × ℚ), s.1 ≤ (simLoop target dT timeStep fuel s).1 := by
  intro fuel
  induction fuel with
  | zero => intro s; simp [simLoop]
  | succ f ih =>
    intro s
    by_cases hcur : s.1 < target
    · by_cases hg : dT ≤ 0
      · simp only [simLoop, if_pos hcur, if_pos hg, loopStep]
        linarith
      · have h1 : s.1 ≤ (loopStep dT timeStep s).1 := by
          simp only [loopStep]
          linarith
        have h2 := ih (loopStep dT timeStep s)
        simp only [simLoop, if_pos hcur, if_neg hg]
        exact le_trans h1 h2
    · simp [simLoop, hcur]

/-- The run of the guarded-negative example: with `numCollectors = -1` the
single executed iteration drops the temperature from `0` to `-1000` and the
guard then stops the loop after one time step. -/
theorem negative_collector_run :
    simulateRun 1 1 0 1 (-1) 1 1 = (-1000, 1) := by
  have hdT : deltaT 1 1 (-1) 1 1 = -1000 := by
    norm_num [deltaT, temperatureIncrease, energyTransferred, totalPowerOutput]
  have h := simulateRun_of_nonpos 1 1 0 1 (-1) 1 1 (by rw [hdT]; norm_num)
  rw [h, if_pos (by norm_num : (0 : ℚ) < 1), hdT]
  norm_num

/-- Once the loop condition `currentTemperature < targetTemperature` is
false — which includes the cases where the temperature is `NaN` or `+∞` —
the JavaScript loop stops at once, whatever fuel remains. -/
theorem simLoopJs_of_not_lt (target dT timeStep : JsNum) (fuel : ℕ)
    (s : JsNum × JsNum) (h : JsNum.lt s.1 target = false) :
    simLoopJs target dT timeStep fuel s = some s := by
  cases fuel <;> simp [simLoopJs, h]

/-- With `mass = 0` or `specificHeat = 0` (and finite inputs, target above
initial), the division by zero makes the temperature increase `NaN`, `+∞`
or `-∞`; the `<= 0` guard only catches `-∞`, but in every case the loop
terminates after exactly one iteration — `NaN < target` and `+∞ < target`
are false, so the while condition fails — and the call returns one time
step. -/
theorem jsRun_zero_denominator (m c i t k p s : ℚ)
    (hmc : m = 0 ∨ c = 0) (hit : i < t) (fuel : ℕ) (hfuel : 1 ≤ fuel) :
    simulateHeatTransferJs (.fin m) (.fin c) (.fin i) (.fin t) (.fin k)
      (.fin p) (.fin s) fuel = some (.fin (0 + s)) := by
  obtain ⟨f, rfl⟩ : ∃ f, fuel = f + 1 :=
    ⟨fuel - 1, (Nat.succ_pred_eq_of_pos hfuel).symm⟩
  have hmc0 : m * c = 0 := by rcases hmc with h | h <;> simp [h]
  have hlt : JsNum.lt (.fin i) (.fin t) = true := by
    simp [JsNum.lt, hit]
  simp only [simulateHeatTransferJs, JsNum.mul, hmc0]
  rcases lt_trichotomy (k * p * 1000 * s) 0 with he | he | he
  · have hdiv : JsNum.div (.fin (k * p * 1000 * s)) (.fin 0) = .negInf := by
      simp [JsNum.div, he.ne, not_lt.mpr he.le]
    rw [hdiv]
    simp only [simLoopJs, hlt, if_true]
    have hg : JsNum.le .negInf (.fin 0) = true := by simp [JsNum.le]
    simp [hg, JsNum.add]
  · have hdiv : JsNum.div (.fin (k * p * 1000 * s)) (.fin 0) = .nan := by
      simp [JsNum.div, he]
    rw [hdiv]
    simp only [simLoopJs, hlt, if_true]
    have hg : JsNum.le .nan (.fin 0) = false := by simp [JsNum.le]
    have hadd : JsNum.add (.fin i) .nan = .nan := by simp [JsNum.add]
    simp only [hg, Bool.false_eq_true, if_false, hadd]
    rw [simLoopJs_of_not_lt _ _ _ _ _ (by simp [JsNum.lt])]
    simp [JsNum.add]
  · have hdiv : JsNum.div (.fin (k * p * 1000 * s)) (.fin 0) = .posInf := by
      simp [JsNum.div, he.ne', he]
    rw [hdiv]
    simp only [simLoopJs, hlt, if_true]
    have hg : JsNum.le .posInf (.fin 0) = false := by simp [JsNum.le]
    have hadd : JsNum.add (.fin i) .posInf = .posInf := by simp [JsNum.add]
    simp only [hg, Bool.false_eq_true, if_false, hadd]
    rw [simLoopJs_of_not_lt _ _ _ _ _ (by simp [JsNum.lt])]
    simp [JsNum.add]

/-! ## Claim theorems -/

/-- C1: for positive `mass`, `specificHeat`, `timeStep`, positive
`totalPowerOutput = numCollectors * collectorPower * 1000`, and
`targetTemperature > initialTemperature`, the returned elapsed time is
`n * timeStep` for `n = ⌈(target - init) / deltaT⌉` with
`deltaT = (totalPowerOutput * timeStep) / (mass * specificHeat)`; `n` is
positive, and it is the smallest step count whose cumulative temperature
rise reaches or exceeds `target - init`. -/
theorem heatTransfer_time_eq_ceil_steps (mass specificHeat i t k p timeStep : ℚ)
    (hm : 0 < mass) (hC : 0 < specificHeat) (hstep : 0 < timeStep)
    (hP : 0 < totalPowerOutput k p) (ht : i < t) :
    0 < stepsNeeded t i (deltaT mass specificHeat k p timeStep) ∧
    simulateHeatTransfer mass specificHeat i t k p timeStep
      = (stepsNeeded t i (deltaT mass specificHeat k p timeStep) : ℚ) * timeStep ∧
    t - i ≤ (stepsNeeded t i (deltaT mass specificHeat k p timeStep) : ℚ)
        * deltaT mass specificHeat k p timeStep ∧
    ∀ m : ℕ, m < stepsNeeded t i (deltaT mass specificHeat k p timeStep) →
      (m : ℚ) * deltaT mass specificHeat k p timeStep < t - i := by
  have hdT : 0 < deltaT mass specificHeat k p timeStep := by
    rw [deltaT_def]
    exact div_pos (mul_pos hP hstep) (mul_pos hm hC)
  obtain ⟨hreach, hlt⟩ := stepsNeeded_spec t i (deltaT mass specificHeat k p timeStep) hdT
  refine ⟨Nat.ceil_pos.mpr (div_pos (by linarith) hdT), ?_, by linarith, ?_⟩
  · rw [simulateHeatTransfer, simulateRun_eq_of_pos mass specificHeat i t k p timeStep hdT]
  · intro m hm'
    have := hlt m hm'
    linarith

/-- Witness for C1 at the reference scenario: all hypotheses hold and the
step count evaluates to `280`. -/
theorem heatTransfer_time_eq_ceil_steps_witness :
    (0 < stepsNeeded 60 20 (deltaT 10000 4186 25 4 60) ∧
      simulateHeatTransfer 10000 4186 20 60 25 4 60
        = (stepsNeeded 60 20 (deltaT 10000 4186 25 4 60) : ℚ) * 60 ∧
      (60 : ℚ) - 20 ≤ (stepsNeeded 60 20 (deltaT 10000 4186 25 4 60) : ℚ)
          * deltaT 10000 4186 25 4 60 ∧
      ∀ m : ℕ, m < stepsNeeded 60 20 (deltaT 10000 4186 25 4 60) →
        (m : ℚ) * deltaT 10000 4186 25 4 60 < 60 - 20) ∧
    stepsNeeded 60 20 (deltaT 10000 4186 25 4 60) = 280 :=
  ⟨heatTransfer_time_eq_ceil_steps 10000 4186 20 60 25 4 60 (by norm_num)
      (by norm_num) (by norm_num) (by norm_num [totalPowerOutput]) (by norm_num),
   by rw [ref_deltaT]; exact ref_steps⟩

/-- C2: when `targetTemperature ≤ initialTemperature` the loop performs zero
iterations (the final state is the initial state) and the function returns
exactly `0`. -/
theorem heatTransfer_zero_when_target_le_initial
    (mass specificHeat i t k p timeStep : ℚ) (h : t ≤ i) :
    simulateRun mass specificHeat i t k p timeStep = (i, 0) ∧
    simulateHeatTransfer mass specificHeat i t k p timeStep = 0 := by
  have hrun := simulateRun_of_target_le mass specificHeat i t k p timeStep h
  exact ⟨hrun, by rw [simulateHeatTransfer, hrun]⟩

/-- Witness for C2: target `20` below initial `60` returns `0`. -/
theorem heatTransfer_zero_when_target_le_initial_witness :
    simulateRun 10000 4186 60 20 25 4 60 = (60, 0) ∧
    simulateHeatTransfer 10000 4186 60 20 25 4 60 = 0 :=
  heatTransfer_zero_when_target_le_initial 10000 4186 60 20 25 4 60 (by norm_num)

/-- C3: with `numCollectors = 0` or `collectorPower = 0` and the target above
the initial temperature, the per-step increase is `0`, the guard fires on the
first iteration, and the function returns exactly one `timeStep`. -/
theorem heatTransfer_single_step_when_power_zero
    (mass specificHeat i t k p timeStep : ℚ) (hkp : k = 0 ∨ p = 0) (ht : i < t) :
    deltaT mass specificHeat k p timeStep = 0 ∧
    simulateRun mass specificHeat i t k p timeStep = (i, timeStep) ∧
    simulateHeatTransfer mass specificHeat i t k p timeStep = timeStep := by
  have hdT : deltaT mass specificHeat k p timeStep = 0 := by
    rcases hkp with h | h <;>
      simp [deltaT, temperatureIncrease, energyTransferred, totalPowerOutput, h]
  have hrun := simulateRun_of_nonpos mass specificHeat i t k p timeStep (le_of_eq hdT)
  rw [if_pos ht, hdT, add_zero] at hrun
  exact ⟨hdT, hrun, by rw [simulateHeatTransfer, hrun]⟩

/-- Witness for C3: zero collectors in the reference scenario return one
time step of `60` seconds. -/
theorem heatTransfer_single_step_when_power_zero_witness :
    deltaT 10000 4186 0 4 60 = 0 ∧
    simulateRun 10000 4186 20 60 0 4 60 = (20, 60) ∧
    simulateHeatTransfer 10000 4186 20 60 0 4 60 = 60 :=
  heatTransfer_single_step_when_power_zero 10000 4186 20 60 0 4 60
    (Or.inl rfl) (by norm_num)

/-- C4 counterexample: increasing the collector count from `0` to `25`
(all other inputs the reference scenario's) increases the returned elapsed
time from `60` to `16800` seconds, so the claim fails as stated. -/
theorem heatTransfer_power_monotonicity_counterexample :
    simulateHeatTransfer 10000 4186 20 60 0 4 60 = 60 ∧
    simulateHeatTransfer 10000 4186 20 60 25 4 60 = 16800 ∧
    ¬ simulateHeatTransfer 10000 4186 20 60 25 4 60
        ≤ simulateHeatTransfer 10000 4186 20 60 0 4 60 :=
  ⟨zero_collectors_result, reference_result, by
    rw [zero_collectors_result, reference_result]; norm_num⟩

/-- C4 amended: for positive `mass`, `specificHeat` and `timeStep`, and
*positive* total power output on the smaller-power side, increasing the
total power output `numCollectors * collectorPower * 1000` (in particular,
increasing `numCollectors` or `collectorPower` from a positive base) never
increases the returned elapsed time. -/
theorem heatTransfer_antitone_in_positive_power
    (mass specificHeat i t k p k' p' timeStep : ℚ)
    (hm : 0 < mass) (hC : 0 < specificHeat) (hstep : 0 < timeStep)
    (hP : 0 < totalPowerOutput k p)
    (hPle : totalPowerOutput k p ≤ totalPowerOutput k' p') :
    simulateHeatTransfer mass specificHeat i t k' p' timeStep
      ≤ simulateHeatTransfer mass specificHeat i t k p timeStep := by
  have hmc : 0 < mass * specificHeat := mul_pos hm hC
  have hdT : 0 < deltaT mass specificHeat k p timeStep := by
    rw [deltaT_def]
    exact div_pos (mul_pos hP hstep) hmc
  have hdT' : 0 < deltaT mass specificHeat k' p' timeStep := by
    rw [deltaT_def]
    exact div_pos (mul_pos (lt_of_lt_of_le hP hPle) hstep) hmc
  have hdTle : deltaT mass specificHeat k p timeStep
      ≤ deltaT mass specificHeat k' p' timeStep := by
    rw [deltaT_def, deltaT_def]
    exact div_le_div_of_nonneg_right
      (mul_le_mul_of_nonneg_right hPle hstep.le) hmc.le
  by_cases ht : t ≤ i
  · rw [simulateHeatTransfer, simulateHeatTransfer,
      simulateRun_of_target_le mass specificHeat i t k p timeStep ht,
      simulateRun_of_target_le mass specificHeat i t k' p' timeStep ht]
  · push_neg at ht
    rw [simulateHeatTransfer, simulateHeatTransfer,
      simulateRun_eq_of_pos mass specificHeat i t k p timeStep hdT,
      simulateRun_eq_of_pos mass specificHeat i t k' p' timeStep hdT']
    show (stepsNeeded t i (deltaT mass specificHeat k' p' timeStep) : ℚ) * timeStep
      ≤ (stepsNeeded t i (deltaT mass specificHeat k p timeStep) : ℚ) * timeStep
    have hn : stepsNeeded t i (deltaT mass specificHeat k' p' timeStep)
        ≤ stepsNeeded t i (deltaT mass specificHeat k p timeStep) := by
      apply Nat.ceil_mono
      rw [div_le_div_iff₀ hdT' hdT]
      exact mul_le_mul_of_nonneg_left hdTle (by linarith)
    exact mul_le_mul_of_nonneg_right (by exact_mod_cast hn) hstep.le

/-- Witness for C4 amended: doubling the collector count from `25` to `50`
does not increase the elapsed time. -/
theorem heatTransfer_antitone_in_positive_power_witness :
    simulateHeatTransfer 10000 4186 20 60 50 4 60
      ≤ simulateHeatTransfer 10000 4186 20 60 25 4 60 :=
  heatTransfer_antitone_in_positive_power 10000 4186 20 60 25 4 50 4 60
    (by norm_num) (by norm_num) (by norm_num)
    (by norm_num [totalPowerOutput]) (by norm_num [totalPowerOutput])

/-- C5 counterexample: the reference scenario returns `16800` seconds, not
the claimed `16740`. -/
theorem reference_scenario_not_16740 :
    totalTimeInSeconds = 16800 ∧ totalTimeInSeconds ≠ 16740 := by
  have h : totalTimeInSeconds = 16800 := reference_result
  exact ⟨h, by rw [h]; norm_num⟩

/-- C5 amended: for the reference scenario inputs the per-step increase is
exactly `300 / 2093 ≈ 0.143335 °C`, `ceil(40 / deltaT) = 280` (after 279
steps the temperature is `59.990… < 60`), and the function returns
`280 * 60 = 16800` seconds. -/
theorem reference_scenario_returns_16800 :
    deltaT 10000 4186 25 4 60 = 300 / 2093 ∧
    stepsNeeded 60 20 (300 / 2093 : ℚ) = 280 ∧
    totalTimeInSeconds = 280 * 60 := by
  refine ⟨ref_deltaT, ref_steps, ?_⟩
  have h : totalTimeInSeconds = 16800 := reference_result
  rw [h]; norm_num

/-- C6 counterexample: with `numCollectors = -1` (mass, heat, step `1`,
heating from `0` toward `1`) the run executes exactly one iteration
(elapsed time `1`) and that iteration *decreases* the current temperature
from `0` to `-1000`, so the temperature is not non-decreasing for every
input. -/
theorem temperature_decrease_counterexample :
    (simulateRun 1 1 0 1 (-1) 1 1).1 = -1000 ∧
    (simulateRun 1 1 0 1 (-1) 1 1).2 = 1 ∧
    (simulateRun 1 1 0 1 (-1) 1 1).1 < 0 := by
  have h := negative_collector_run
  exact ⟨by rw [h], by rw [h], by rw [h]; norm_num⟩

/-- C6 amended: provided the per-step `temperatureIncrease` is nonnegative
(as it is whenever the collector inputs are nonnegative and mass and
specific heat are positive), the current temperature never decreases: each
executed `loopStep` does not decrease it, and hence neither does any number
of loop iterations. -/
theorem temperature_nondecreasing_of_nonneg_increase
    (target dT timeStep : ℚ) (hdT : 0 ≤ dT) (s : ℚ × ℚ) :
    s.1 ≤ (loopStep dT timeStep s).1 ∧
    ∀ fuel : ℕ, s.1 ≤ (simLoop target dT timeStep fuel s).1 := by
  constructor
  · simp only [loopStep]
    linarith
  · intro fuel
    exact simLoop_fst_mono target dT timeStep hdT fuel s

/-- Witness for C6 amended at a concrete nonnegative increase. -/
theorem temperature_nondecreasing_of_nonneg_increase_witness :
    ((20 : ℚ), (0 : ℚ)).1 ≤ (loopStep 1 60 (20, 0)).1 ∧
    ∀ fuel : ℕ, ((20 : ℚ), (0 : ℚ)).1 ≤ (simLoop 60 1 60 fuel (20, 0)).1 :=
  temperature_nondecreasing_of_nonneg_increase 60 1 60 (by norm_num) (20, 0)

/-- C7: the elapsed-time component of the state is always its starting
value plus a natural-number multiple of `timeStep` — at every point of the
loop, from every starting state — and consequently the value returned by
`simulateHeatTransfer` is a natural-number multiple of `timeStep`. -/
theorem elapsed_time_multiple_of_step (target dT timeStep : ℚ) :
    (∀ (fuel : ℕ) (s : ℚ × ℚ), ∃ n : ℕ,
        (simLoop target dT timeStep fuel s).2 = s.2 + n * timeStep) ∧
    ∀ mass specificHeat init numCollectors collectorPower : ℚ, ∃ n : ℕ,
        simulateHeatTransfer mass specificHeat init target numCollectors
          collectorPower timeStep = n * timeStep := by
  refine ⟨simLoop_snd_multiple target dT timeStep, ?_⟩
  intro mass specificHeat init k p
  obtain ⟨n, hn⟩ := simLoop_snd_multiple target
    (deltaT mass specificHeat k p timeStep) timeStep
    (loopFuel target init (deltaT mass specificHeat k p timeStep)) (init, 0)
  refine ⟨n, ?_⟩
  rw [simulateHeatTransfer, simulateRun, hn]
  norm_num

/-- C8 counterexample: at the concrete input `mass = 0` (other inputs the
reference scenario's) the call terminates within a single iteration and
returns `timeStep = 60` — it is not an infinite loop.  The division by zero
yields `+∞`, the `<= 0` guard indeed does not fire, but the while condition
`currentTemperature < targetTemperature` becomes false as soon as the
temperature is `+∞` (or `NaN`), so the loop exits. -/
theorem mass_zero_division_terminates :
    simulateHeatTransferJs (.fin 0) (.fin 4186) (.fin 20) (.fin 60)
      (.fin 25) (.fin 4) (.fin 60) 1 = some (.fin 60) := by
  have h := jsRun_zero_denominator 0 4186 20 60 25 4 60 (Or.inl rfl)
    (by norm_num) 1 le_rfl
  rw [h]
  norm_num

/-- C8 amended: for every finite input with `mass = 0` or
`specificHeat = 0` and `targetTemperature > initialTemperature`, the
division by zero makes the temperature increase non-finite (`NaN`, `+∞` or
`-∞`) and the `<= 0` guard does not catch `NaN` or `+∞`; nevertheless the
loop always terminates after exactly one iteration — one unit of fuel
suffices — returning `timeStep`, because the while condition
`currentTemperature < targetTemperature` is false once the current
temperature is `NaN` or `+∞` (and the guard catches `-∞`). -/
theorem nonfinite_increase_single_iteration (m c i t k p s : ℚ)
    (hmc : m = 0 ∨ c = 0) (hit : i < t) (fuel : ℕ) (hfuel : 1 ≤ fuel) :
    simulateHeatTransferJs (.fin m) (.fin c) (.fin i) (.fin t) (.fin k)
      (.fin p) (.fin s) fuel = some (.fin (0 + s)) :=
  jsRun_zero_denominator m c i t k p s hmc hit fuel hfuel

/-- Witness for C8 amended: `specificHeat = 0` with ample fuel still stops
after the single iteration. -/
theorem nonfinite_increase_single_iteration_witness :
    simulateHeatTransferJs (.fin 10000) (.fin 0) (.fin 20) (.fin 60)
      (.fin 25) (.fin 4) (.fin 60) 1000000 = some (.fin (0 + 60)) :=
  nonfinite_increase_single_iteration 10000 0 20 60 25 4 60 (Or.inr rfl)
    (by norm_num) 1000000 (by norm_num)

/-- C9: shifting both temperatures by the same offset leaves the result
unchanged — the elapsed time depends on the two temperatures only through
their difference. -/
theorem heatTransfer_translation_invariance
    (mass specificHeat i t k p timeStep d : ℚ) :
    simulateHeatTransfer mass specificHeat (i + d) (t + d) k p timeStep
      = simulateHeatTransfer mass specificHeat i t k p timeStep := by
  have hsn : stepsNeeded (t + d) (i + d) (deltaT mass specificHeat k p timeStep)
      = stepsNeeded t i (deltaT mass specificHeat k p timeStep) := by
    have h : t + d - (i + d) = t - i := by ring
    simp only [stepsNeeded, h]
  have hlf : loopFuel (t + d) (i + d) (deltaT mass specificHeat k p timeStep)
      = loopFuel t i (deltaT mass specificHeat k p timeStep) := by
    simp only [loopFuel, hsn]
  have hshift := simLoop_shift t (deltaT mass specificHeat k p timeStep)
    timeStep d (loopFuel t i (deltaT mass specificHeat k p timeStep)) i 0
  simp only [simulateHeatTransfer, simulateRun, hlf, hshift]

/-- C10: the function depends on `numCollectors` and `collectorPower` only
through their product (so in particular swapping the two arguments leaves
the result unchanged). -/
theorem heatTransfer_power_product_only
    (mass specificHeat i t k p k' p' timeStep : ℚ) (h : k' * p' = k * p) :
    simulateHeatTransfer mass specificHeat i t k' p' timeStep
      = simulateHeatTransfer mass specificHeat i t k p timeStep := by
  have hPP : totalPowerOutput k' p' = totalPowerOutput k p := by
    simp only [totalPowerOutput]
    rw [h]
  simp only [simulateHeatTransfer, simulateRun, deltaT, hPP]

/-- Witness for C10: swapping `numCollectors = 25` and `collectorPower = 4`
leaves the reference result unchanged. -/
theorem heatTransfer_power_product_only_witness :
    simulateHeatTransfer 10000 4186 20 60 4 25 60
      = simulateHeatTransfer 10000 4186 20 60 25 4 60 :=
  heatTransfer_power_product_only 10000 4186 20 60 25 4 4 25 60 (by norm_num)
